/-
Formal verification of the healthy_herron repository's fasting and user-profile
configuration logic, shallowly embedded in Lean 4.

Times are modelled as integers (seconds); JSON values as a small inductive type;
Python dicts (insertion-ordered, unique keys) as association lists.
-/
import Mathlib

namespace HealthyHerron

/-- A JSON-ish value stored in a profile configuration
(`Profile.configuration` is a Django `JSONField`). -/
inductive JVal : Type where
  | jnum (n : Int)
  | jstr (s : String)
  | jbool (b : Bool)
deriving DecidableEq, Repr

/-- Association-list lookup, modelling Python `d[k]` / `k in d` on a dict. -/
def alookup {β : Type} : List (String × β) → String → Option β
  | [], _ => none
  | (a, b) :: t, k => if a = k then some b else alookup t k

/-- Association-list insertion/update, modelling Python `d[k] = v`
(updates in place when the key exists, otherwise appends, as dicts preserve
insertion order). -/
def ainsert {β : Type} : List (String × β) → String → β → List (String × β)
  | [], k, v => [(k, v)]
  | (a, b) :: t, k, v => if a = k then (a, v) :: t else (a, b) :: ainsert t k v

/-- Association-list deletion, modelling Python `del d[k]`. -/
def aerase {β : Type} (l : List (String × β)) (k : String) : List (String × β) :=
  l.filter (fun p => decide (p.1 ≠ k))

/-- The per-app configuration sub-mapping (`configuration[app_name]`). -/
abbrev Inner := List (String × JVal)

/-- The whole configuration blob (`Profile.configuration`). -/
abbrev Config := List (String × Inner)

theorem alookup_ainsert_self {β : Type} (l : List (String × β)) (k : String) (v : β) :
    alookup (ainsert l k v) k = some v := by
  induction l with
  | nil => simp [ainsert, alookup]
  | cons hd t ih =>
    obtain ⟨a, b⟩ := hd
    by_cases h : a = k
    · simp [ainsert, h, alookup]
    · simp [ainsert, h, alookup, ih]

theorem ainsert_ne_nil {β : Type} (l : List (String × β)) (k : String) (v : β) :
    ainsert l k v ≠ [] := by
  cases l with
  | nil => simp [ainsert]
  | cons hd t =>
    obtain ⟨a, b⟩ := hd
    by_cases h : a = k <;> simp [ainsert, h]

theorem alookup_aerase_self {β : Type} (l : List (String × β)) (k : String) :
    alookup (aerase l k) k = none := by
  induction l with
  | nil => simp [aerase, alookup]
  | cons hd t ih =>
    obtain ⟨a, b⟩ := hd
    by_cases h : a = k
    · simpa [aerase, h] using ih
    · simpa [aerase, h, alookup] using ih

theorem alookup_append_of_none {β : Type} (l₁ l₂ : List (String × β)) (k : String)
    (h : alookup l₁ k = none) : alookup (l₁ ++ l₂) k = alookup l₂ k := by
  induction l₁ with
  | nil => simp
  | cons hd t ih =>
    obtain ⟨a, b⟩ := hd
    by_cases hak : a = k
    · simp [alookup, hak] at h
    · simp only [alookup, hak, if_neg hak, List.cons_append] at h ⊢
      exact ih h

/-- A user profile; only the `configuration` JSON blob matters for the claims
(the avatar-file handling in `Profile.save`/`Profile.delete` touches storage
only and never the configuration). -/
structure Profile : Type where
  configuration : Config
deriving DecidableEq, Repr

namespace Profile

/-- `Profile.get_default_configuration` from `users/models.py`. -/
def get_default_configuration : Config :=
  [("fasting",
     [("min_fast_duration", JVal.jnum 30),
      ("max_fast_duration", JVal.jnum 1440)])]

/-- `Profile.save` from `users/models.py`: replaces a falsy (empty)
configuration with the defaults before persisting. -/
def save (p : Profile) : Profile :=
  if p.configuration = [] then { p with configuration := get_default_configuration }
  else p

/-- `Profile.set_configuration(app_name, key, value)` from `users/models.py`. -/
def set_configuration (p : Profile) (app_name key : String) (value : JVal) : Profile :=
  let c0 := p.configuration
  let c1 := if alookup c0 app_name = none then c0 ++ [(app_name, [])] else c0
  let inner := (alookup c1 app_name).getD []
  save { p with configuration := ainsert c1 app_name (ainsert inner key value) }

/-- `Profile.delete_configuration(app_name, key)` from `users/models.py`.
Returns early (without saving) when the configuration is falsy or lacks the
app; otherwise deletes and calls `save` (which reinstates the defaults when
the configuration became empty). -/
def delete_configuration (p : Profile) (app_name : String) (key : Option String) : Profile :=
  if p.configuration = [] ∨ alookup p.configuration app_name = none then p
  else
    match key with
    | none => save { p with configuration := aerase p.configuration app_name }
    | some k =>
      let inner := (alookup p.configuration app_name).getD []
      if alookup inner k ≠ none then
        let inner2 := aerase inner k
        let c2 := if inner2 = [] then aerase p.configuration app_name
                  else ainsert p.configuration app_name inner2
        save { p with configuration := c2 }
      else save p

/-- The configuration `delete_configuration p app (some k)` computes before its
final `save` call (used to state when `save`'s default-reinstating kicks in). -/
def deleted_config (p : Profile) (app_name k : String) : Config :=
  match alookup p.configuration app_name with
  | none => p.configuration
  | some inner =>
    if alookup inner k ≠ none then
      let inner2 := aerase inner k
      if inner2 = [] then aerase p.configuration app_name
      else ainsert p.configuration app_name inner2
    else p.configuration

/-- `Profile.get_configuration(app_name, key, default)` from `users/models.py`,
for the `key is not None` branch (the `key is None` branch returns the whole
per-app mapping and is not needed by the claims). -/
def get_configuration (p : Profile) (app_name key : String) (default : JVal) : JVal :=
  if p.configuration = [] ∨ alookup p.configuration app_name = none then default
  else ((alookup ((alookup p.configuration app_name).getD []) key).getD default)

end Profile

/-- A row of the `fasting_fast` table (`Fast` in `fasting/models.py`).
Datetimes are integer seconds; `pk` is `None` before the first save;
`emotional_status` is a nullable `CharField` (`none` or a string, possibly
empty); `comments` is a non-null `TextField`. -/
structure Fast : Type where
  pk : Option Nat
  user : Nat
  start_time : Int
  end_time : Option Int
  emotional_status : Option String
  comments : String
deriving DecidableEq, Repr

/-- Python falsiness of the `emotional_status` field: `None` or `""`. -/
def esEmpty : Option String → Bool
  | none => true
  | some s => s = ""

namespace Fast

/-- The first guard of `Fast.clean`: `end_time` truthy (a datetime is always
truthy, so: non-null) and `end_time <= start_time`. -/
def endNotAfterStart (f : Fast) : Bool :=
  match f.end_time with
  | some e => decide (e ≤ f.start_time)
  | none => false

/-- `if self.pk: existing_active = existing_active.exclude(pk=self.pk)` —
true when the row `g` survives the exclusion of `f` itself. -/
def excludeSelf (f g : Fast) : Bool :=
  match f.pk with
  | some p => decide (g.pk ≠ some p)
  | none => true

/-- `Fast.objects.active_for_user(self.user)` minus `self`, as queried by
`Fast.clean` against the database `db` of persisted rows. -/
def activeOthers (f : Fast) (db : List Fast) : List Fast :=
  db.filter (fun g => decide (g.user = f.user ∧ g.end_time = none) && excludeSelf f g)

/-- `Fast.clean` from `fasting/models.py`: the four validation guards, in
source order, each raising `ValidationError` with the given message. -/
def clean (f : Fast) (db : List Fast) : Except String Unit :=
  if endNotAfterStart f then
    Except.error "End time must be after start time."
  else if f.comments ≠ "" ∧ f.comments.length > 128 then
    Except.error "Comments cannot exceed 128 characters."
  else if f.end_time.isSome ∧ esEmpty f.emotional_status then
    Except.error "Emotional status is required when ending a fast."
  else if f.end_time = none ∧ activeOthers f db ≠ [] then
    Except.error "You can only have one active fast at a time."
  else Except.ok ()

/-- Effect of a successful `Fast.save` on the table: the saved row replaces
the row with its `pk` (an update), or is a fresh insertion when `pk` is null. -/
def saveDb (f : Fast) (db : List Fast) : List Fast :=
  f :: db.filter (fun g => excludeSelf f g)

/-- `Fast.is_active`: `end_time is None`. -/
def is_active (f : Fast) : Bool :=
  f.end_time = none

/-- `Fast.duration`: `end_time - start_time` for ended fasts, else `None`
(a datetime is always truthy, so `if self.end_time:` tests non-null). -/
def duration (f : Fast) : Option Int :=
  match f.end_time with
  | some e => some (e - f.start_time)
  | none => none

/-- `Fast.duration_hours`: `if self.duration:` is Python truthiness, false for
`None` and for a zero timedelta; `//` and `%` are floor-based, modelled by
`Int.fdiv`/`Int.fmod`. -/
def duration_hours (f : Fast) : String :=
  match duration f with
  | some d =>
    if d ≠ 0 then
      let hours := Int.fdiv d 3600
      let minutes := Int.fdiv (Int.fmod d 3600) 60
      toString hours ++ "h " ++ toString minutes ++ "m"
    else ""
  | none => ""

/-- `Fast.duration_seconds`: `int(self.duration.total_seconds())` when
`self.duration` is truthy (non-null and nonzero), else `0`. -/
def duration_seconds (f : Fast) : Int :=
  match duration f with
  | some d => if d ≠ 0 then d else 0
  | none => 0

/-- `Fast.end_fast(emotional_status, comments)`: raises when already ended,
otherwise stamps `end_time := now`, sets the status and comments, and saves
(which runs `full_clean`, i.e. `clean`, against the table). Returns the row
as persisted. -/
def end_fast (f : Fast) (emotional_status comments : String) (now : Int)
    (db : List Fast) : Except String Fast :=
  if f.end_time.isSome then
    Except.error "Fast is already completed."
  else
    let f2 := { f with end_time := some now,
                       emotional_status := some emotional_status,
                       comments := comments }
    match clean f2 db with
    | Except.ok _ => Except.ok f2
    | Except.error e => Except.error e

end Fast

/-- `StartFastForm.clean` from `fasting/forms.py` (with the form's user set, as
the views always do): rejects when the user already has an active fast. -/
def startFastFormClean (user : Nat) (db : List Fast) : Except String Unit :=
  if db.filter (fun g => decide (g.user = user ∧ g.end_time = none)) ≠ [] then
    Except.error "You already have an active fast. Please end your current fast before starting a new one."
  else Except.ok ()

/-- `EndFastForm.clean` from `fasting/forms.py`: requires an emotional status
when `end_time` is set, and `end_time` strictly after the instance's
`start_time` (the second check goes through `add_error`; either way the form
is invalid, modelled as the first error raised). -/
def endFastFormClean (start_time : Int) (end_time : Option Int)
    (emotional_status : Option String) : Except String Unit :=
  if end_time.isSome ∧ esEmpty emotional_status then
    Except.error "Emotional status is required when ending a fast."
  else if (match end_time with | some e => decide (e ≤ start_time) | none => false) then
    Except.error "End time must be after the start time."
  else Except.ok ()

/-- Outcome of `EndFastView.form_valid` in `fasting/views.py`. -/
inductive EndFastOutcome : Type where
  | completed (updated : Fast)
  | conflict (msg : String)
deriving DecidableEq, Repr

/-- `EndFastView.form_valid` from `fasting/views.py`, as a step on the locked
record: `record` is what `select_for_update().get(pk=...)` finds (`none` when
the row is gone, raising `Fast.DoesNotExist`). An already-ended row aborts
with a conflict message, leaving the row untouched; otherwise the form saves
the row ended at `now`. Returns the outcome and the row afterwards.
(The source's `DoesNotExist` message reads "The fast you" + an apostrophe +
"re trying to end no longer exists.", elided here.) -/
def endFastViewStep (record : Option Fast) (now : Int)
    (emotional_status comments : String) : EndFastOutcome × Option Fast :=
  match record with
  | none => (EndFastOutcome.conflict "The fast being ended no longer exists.", none)
  | some f =>
    if f.end_time.isSome then
      (EndFastOutcome.conflict "This fast has already been ended.", some f)
    else
      let f2 := { f with end_time := some now,
                         emotional_status := some emotional_status,
                         comments := comments }
      (EndFastOutcome.completed f2, some f2)

/-- The CSV header row written by `ExportFastDataView._export_csv`
(`fasting/views.py`, `writer.writerow([...])`). -/
def csvHeader : List String :=
  ["Start Time", "End Time", "Duration (hours)", "Status", "Emotional Status", "Comments"]

/-- The top-level keys of the object built by `ExportFastDataView._export_json`
(`data = {...}`; `fasts` is then appended to in place, adding no key). -/
def jsonTopLevelKeys : List String :=
  ["exported_at", "user_email", "total_fasts", "fasts"]

/-- The keys of each `fast_data` dict built by
`ExportFastDataView._export_json`, in source order. -/
def jsonFastEntryKeys : List String :=
  ["id", "start_time", "end_time", "duration_seconds", "is_active",
   "emotional_status", "emotional_status_display", "comments"]

/-- The CSV header row as the spec's words give it (for comparison with
`csvHeader`, which is embedded from the source). -/
def specCsvHeader : List String :=
  ["Start Time", "End Time", "Duration(hours)", "Status", "Emotional Status", "Comments"]

/-- The per-fast JSON keys the spec lists (for comparison with
`jsonFastEntryKeys`, which is embedded from the source). -/
def specJsonFastKeys : List String :=
  ["id", "start_time", "end_time", "duration_seconds", "is_active",
   "emotional_status", "comments"]

/-- A persisted active fast (started at time 0, nothing else set). -/
def activeFastEx : Fast :=
  { pk := some 1, user := 1, start_time := 0, end_time := none,
    emotional_status := none, comments := "" }

/-- A persisted fast ended exactly 16 hours (57600 s) after it started. -/
def endedFastEx : Fast :=
  { pk := some 1, user := 1, start_time := 0, end_time := some 57600,
    emotional_status := some "energized", comments := "" }

/-- When `Fast.clean` succeeds, none of its guards fired: `end_time` (if set)
is after `start_time`, `emotional_status` accompanies any `end_time`, and an
active fast has no other active fast of the same user in the table. -/
theorem clean_ok_facts (f : Fast) (db : List Fast)
    (h : Fast.clean f db = Except.ok ()) :
    Fast.endNotAfterStart f = false ∧
    ¬ (f.end_time.isSome ∧ esEmpty f.emotional_status) ∧
    ¬ (f.end_time = none ∧ Fast.activeOthers f db ≠ []) := by
  unfold Fast.clean at h
  split at h
  · simp at h
  · split at h
    · simp at h
    · split at h
      · simp at h
      · split at h
        · simp at h
        · rename_i h1 h2 h3 h4
          exact ⟨by simpa using h1, h3, h4⟩

/-- C1: a `Fast` accepted by validation (`Fast.clean`, run on every save via
`full_clean`) has `end_time` either null or strictly greater than
`start_time`. -/
theorem C1_end_time_after_start (f : Fast) (db : List Fast) (e : Int)
    (hok : Fast.clean f db = Except.ok ()) (he : f.end_time = some e) :
    f.start_time < e := by
  have h1 := (clean_ok_facts f db hok).1
  unfold Fast.endNotAfterStart at h1
  rw [he] at h1
  simp at h1
  omega

/-- C1 witness: the 16-hour sample fast passes validation and satisfies the
ordering. -/
theorem C1_witness : endedFastEx.start_time < 57600 :=
  C1_end_time_after_start endedFastEx [] 57600 rfl rfl

/-- C3: a `Fast` with `end_time` set and an empty `emotional_status` is
rejected by `Fast.clean` and by `EndFastForm.clean`; conversely
`Fast.end_fast` always sets `emotional_status` together with `end_time`. -/
theorem C3_emotional_status_with_end :
    (∀ f db, Fast.clean f db = Except.ok () → f.end_time.isSome →
       esEmpty f.emotional_status = false) ∧
    (∀ st et es, endFastFormClean st et es = Except.ok () → et.isSome →
       esEmpty es = false) ∧
    (∀ f status comments now db f2,
       Fast.end_fast f status comments now db = Except.ok f2 →
       f2.end_time = some now ∧ f2.emotional_status = some status) := by
  refine ⟨?_, ?_, ?_⟩
  · intro f db hok hsome
    have h := (clean_ok_facts f db hok).2.1
    by_contra hne
    exact h ⟨hsome, by simpa using hne⟩
  · intro st et es hok hsome
    unfold endFastFormClean at hok
    split at hok
    · simp at hok
    · rename_i hcond
      by_contra hne
      exact hcond ⟨hsome, by simpa using hne⟩
  · intro f status comments now db f2 hok
    unfold Fast.end_fast at hok
    split at hok
    · simp at hok
    · dsimp only at hok
      split at hok
      · rename_i heq
        cases hok
        exact ⟨rfl, rfl⟩
      · simp at hok

/-- C3 witness: a validated ended fast has a nonempty emotional status, and
`end_fast` on the sample active fast stamps both fields. -/
theorem C3_witness :
    esEmpty endedFastEx.emotional_status = false ∧
    (endedFastEx.end_time = some 57600 ∧
     endedFastEx.emotional_status = some "energized") :=
  ⟨C3_emotional_status_with_end.1 endedFastEx [] rfl rfl,
   C3_emotional_status_with_end.2.2 activeFastEx "energized" "" 57600 [] endedFastEx rfl⟩

/-- C6: for an ended fast (validation gives `start_time < end_time`),
`duration_hours` is "Hh Mm" with H the total seconds floor-divided by 3600
and M the remainder floor-divided by 60; a 16-hour fast yields "16h 0m". -/
theorem C6_duration_hours_format :
    (∀ f : Fast, ∀ e : Int, f.end_time = some e → f.start_time < e →
       Fast.duration_hours f =
         toString ((e - f.start_time).toNat / 3600) ++ "h " ++
         toString ((e - f.start_time).toNat % 3600 / 60) ++ "m") ∧
    Fast.duration_hours endedFastEx = "16h 0m" := by
  constructor
  · intro f e he hlt
    unfold Fast.duration_hours Fast.duration
    rw [he]
    dsimp only
    have hd0 : e - f.start_time ≠ 0 := by omega
    rw [if_pos hd0]
    have h1 : Int.fdiv (e - f.start_time) 3600 =
        (((e - f.start_time).toNat / 3600 : Nat) : Int) := by
      rw [Int.fdiv_eq_ediv _ (show (0:Int) ≤ 3600 by norm_num)]
      omega
    have h2 : Int.fdiv (Int.fmod (e - f.start_time) 3600) 60 =
        (((e - f.start_time).toNat % 3600 / 60 : Nat) : Int) := by
      rw [Int.fmod_eq_emod _ (show (0:Int) ≤ 3600 by norm_num),
          Int.fdiv_eq_ediv _ (show (0:Int) ≤ 60 by norm_num)]
      omega
    rw [h1, h2]
    rfl
  · rfl

/-- C6 witness: the theorem applied to the concrete 16-hour fast. -/
theorem C6_witness :
    Fast.duration_hours endedFastEx =
      toString (((57600 : Int) - endedFastEx.start_time).toNat / 3600) ++ "h " ++
      toString (((57600 : Int) - endedFastEx.start_time).toNat % 3600 / 60) ++ "m" :=
  C6_duration_hours_format.1 endedFastEx 57600 rfl (by decide)

/-- C7 counterexample: the claim says that for an active fast the exposed
seconds form of the duration is undefined/null, but `duration_seconds`
returns the defined value `0` for the concrete active fast. -/
theorem C7_counterexample :
    activeFastEx.end_time = none ∧ Fast.duration_seconds activeFastEx = 0 :=
  ⟨rfl, rfl⟩

/-- C7 amended: for an active fast `duration` is null and `duration_seconds`
is `0` (not null); for an ended fast both equal `end_time - start_time`. -/
theorem C7_duration_null_when_active :
    (∀ f : Fast, f.end_time = none →
       Fast.duration f = none ∧ Fast.duration_seconds f = 0) ∧
    (∀ f : Fast, ∀ e : Int, f.end_time = some e → f.start_time < e →
       Fast.duration f = some (e - f.start_time) ∧
       Fast.duration_seconds f = e - f.start_time) := by
  constructor
  · intro f he
    unfold Fast.duration_seconds Fast.duration
    rw [he]
    exact ⟨rfl, rfl⟩
  · intro f e he hlt
    unfold Fast.duration_seconds Fast.duration
    rw [he]
    dsimp only
    have hd0 : e - f.start_time ≠ 0 := by omega
    rw [if_pos hd0]
    exact ⟨rfl, rfl⟩

/-- C7 witness: the amended theorem applied to the two sample fasts. -/
theorem C7_witness :
    (Fast.duration activeFastEx = none ∧ Fast.duration_seconds activeFastEx = 0) ∧
    (Fast.duration endedFastEx = some (57600 - endedFastEx.start_time) ∧
     Fast.duration_seconds endedFastEx = 57600 - endedFastEx.start_time) :=
  ⟨C7_duration_null_when_active.1 activeFastEx rfl,
   C7_duration_null_when_active.2 endedFastEx 57600 rfl (by decide)⟩

/-- Number of active (`end_time` null) rows of user `u` in the table. -/
def countActive (u : Nat) (db : List Fast) : Nat :=
  (db.filter (fun g => decide (g.user = u ∧ g.end_time = none))).length

/-- The C2 invariant: every user has at most one active fast. -/
def atMostOneActive (db : List Fast) : Prop :=
  ∀ u : Nat, countActive u db ≤ 1

/-- C2: saving a `Fast` that passed `Fast.clean` preserves "at most one active
fast per user" (the record itself excluded when updating), and
`StartFastForm.clean` rejects a start whenever the user already has an
active fast. -/
theorem C2_single_active_invariant :
    (∀ f db, atMostOneActive db → Fast.clean f db = Except.ok () →
       atMostOneActive (Fast.saveDb f db)) ∧
    (∀ u db,
       db.filter (fun g => decide (g.user = u ∧ g.end_time = none)) ≠ [] →
       startFastFormClean u db = Except.error
         "You already have an active fast. Please end your current fast before starting a new one.") := by
  constructor
  · intro f db hinv hok u
    unfold atMostOneActive countActive at *
    unfold Fast.saveDb
    by_cases hf : f.user = u ∧ f.end_time = none
    · obtain ⟨hfu, hfe⟩ := hf
      subst hfu
      have hao : Fast.activeOthers f db = [] := by
        by_contra hne
        exact (clean_ok_facts f db hok).2.2 ⟨hfe, hne⟩
      have hz : (db.filter (fun g => Fast.excludeSelf f g)).filter
          (fun g => decide (g.user = f.user ∧ g.end_time = none)) = [] := by
        rw [List.filter_filter]
        unfold Fast.activeOthers at hao
        rw [← hao]
      rw [List.filter_cons]
      rw [if_pos (by exact decide_eq_true ⟨rfl, hfe⟩)]
      rw [hz]
      simp
    · rw [List.filter_cons]
      rw [if_neg (by simpa using hf)]
      calc ((db.filter (fun g => Fast.excludeSelf f g)).filter
              (fun g => decide (g.user = u ∧ g.end_time = none))).length
          ≤ (db.filter (fun g => decide (g.user = u ∧ g.end_time = none))).length :=
            (List.Sublist.filter _ (List.filter_sublist db)).length_le
        _ ≤ 1 := hinv u
  · intro u db h
    unfold startFastFormClean
    rw [if_pos h]

/-- C2 witness: saving the sample active fast into an empty table keeps the
invariant, and the start form rejects with an active fast present. -/
theorem C2_witness :
    atMostOneActive (Fast.saveDb activeFastEx []) ∧
    startFastFormClean 1 [activeFastEx] = Except.error
      "You already have an active fast. Please end your current fast before starting a new one." :=
  ⟨C2_single_active_invariant.1 activeFastEx []
     (fun u => by simp [countActive, List.filter]) rfl,
   C2_single_active_invariant.2 1 [activeFastEx] (by decide)⟩

/-- C8: `EndFastView.form_valid` aborts with a conflict and without mutation
when the locked record is gone or already ended, and completes only when the
record was still active. -/
theorem C8_end_fast_conflict_safe :
    (∀ now : Int, ∀ es cm : String,
       endFastViewStep none now es cm =
         (EndFastOutcome.conflict "The fast being ended no longer exists.", none)) ∧
    (∀ f : Fast, ∀ now : Int, ∀ es cm : String, f.end_time.isSome →
       endFastViewStep (some f) now es cm =
         (EndFastOutcome.conflict "This fast has already been ended.", some f)) ∧
    (∀ f : Fast, ∀ now : Int, ∀ es cm : String, ∀ g : Fast,
       (endFastViewStep (some f) now es cm).1 = EndFastOutcome.completed g →
       f.end_time = none) := by
  refine ⟨fun now es cm => rfl, ?_, ?_⟩
  · intro f now es cm hsome
    unfold endFastViewStep
    dsimp only
    rw [if_pos hsome]
  · intro f now es cm g hc
    cases he : f.end_time with
    | none => rfl
    | some e => simp [endFastViewStep, he] at hc

/-- C8 witness: the already-ended sample fast yields a conflict with the
record unchanged. -/
theorem C8_witness :
    endFastViewStep (some endedFastEx) 99999 "satisfied" "" =
      (EndFastOutcome.conflict "This fast has already been ended.", some endedFastEx) :=
  C8_end_fast_conflict_safe.2.1 endedFastEx 99999 "satisfied" "" rfl

/-- C9 counterexample: the CSV header the code writes spells the third column
"Duration (hours)" (with a space), not the spec's "Duration(hours)". -/
theorem C9_counterexample : csvHeader ≠ specCsvHeader := by decide

/-- C9 amended: the CSV header is the spec's header with the third column
spelled "Duration (hours)"; the JSON export has exactly the four claimed
top-level keys, and every per-fast key the spec lists is among the keys the
code writes. -/
theorem C9_export_keys :
    csvHeader = List.set specCsvHeader 2 "Duration (hours)" ∧
    jsonTopLevelKeys = ["exported_at", "user_email", "total_fasts", "fasts"] ∧
    specJsonFastKeys ⊆ jsonFastEntryKeys := by
  refine ⟨by decide, by decide, ?_⟩
  intro k hk
  fin_cases hk <;> decide

/-- A profile whose configuration holds exactly one app ("fasting") holding
exactly one key. -/
def profileFastingOnly : Profile :=
  ⟨[("fasting", [("min_fast_duration", JVal.jnum 5)])]⟩

/-- A profile with a second app "notes" besides "fasting". -/
def profileTwoApps : Profile :=
  ⟨[("fasting", [("min_fast_duration", JVal.jnum 5)]),
    ("notes", [("k", JVal.jstr "x")])]⟩

theorem save_config_ne_nil (p : Profile) : (Profile.save p).configuration ≠ [] := by
  unfold Profile.save
  split
  · simp [Profile.get_default_configuration]
  · rename_i h
    exact h

theorem get_configuration_eq (p : Profile) (a k : String) (d : JVal) :
    Profile.get_configuration p a k d =
      (alookup ((alookup p.configuration a).getD []) k).getD d := by
  unfold Profile.get_configuration
  split
  · rename_i h
    rcases h with h | h
    · rw [h]
      simp [alookup]
    · rw [h]
      simp [alookup]
  · rfl

/-- C4 counterexample: on a profile whose configuration is exactly
`{"fasting": {"min_fast_duration": 5}}`, deleting that key empties the blob,
`Profile.save` reinstates the defaults, and the subsequent get returns the
default configuration's value 30 instead of the supplied default 0. -/
theorem C4_counterexample :
    Profile.get_configuration
        (Profile.delete_configuration profileFastingOnly "fasting" (some "min_fast_duration"))
        "fasting" "min_fast_duration" (JVal.jnum 0) = JVal.jnum 30 ∧
    JVal.jnum 30 ≠ JVal.jnum 0 := by decide

/-- C4 amended: `set_configuration(app,k,v)` then `get_configuration(app,k)`
returns `v` for every profile; `delete_configuration(app,k)` then
`get_configuration(app,k,default)` returns the default provided the deletion
leaves a non-empty configuration — when it empties it, `save` reinstates the
default configuration and the lookup reads from that instead. -/
theorem C4_config_roundtrip :
    (∀ p : Profile, ∀ a k : String, ∀ v d : JVal,
       Profile.get_configuration (Profile.set_configuration p a k v) a k d = v) ∧
    (∀ p : Profile, ∀ a k : String, ∀ d : JVal,
       Profile.deleted_config p a k ≠ [] →
       Profile.get_configuration (Profile.delete_configuration p a (some k)) a k d = d) ∧
    (∀ p : Profile, ∀ a k : String,
       alookup p.configuration a ≠ none → Profile.deleted_config p a k = [] →
       (Profile.delete_configuration p a (some k)).configuration =
         Profile.get_default_configuration) := by
  refine ⟨?_, ?_, ?_⟩
  · intro p a k v d
    unfold Profile.set_configuration
    dsimp only
    by_cases halo : alookup p.configuration a = none
    · simp only [if_pos halo]
      have h1 : alookup (p.configuration ++ [(a, [])]) a = some [] := by
        rw [alookup_append_of_none _ _ _ halo]
        simp [alookup]
      rw [h1]
      unfold Profile.save
      rw [if_neg (by exact ainsert_ne_nil _ _ _)]
      rw [get_configuration_eq]
      dsimp only
      rw [alookup_ainsert_self]
      dsimp only [Option.getD]
      rw [alookup_ainsert_self]
    · simp only [if_neg halo]
      unfold Profile.save
      rw [if_neg (by exact ainsert_ne_nil _ _ _)]
      rw [get_configuration_eq]
      dsimp only
      rw [alookup_ainsert_self]
      dsimp only [Option.getD]
      rw [alookup_ainsert_self]
  · intro p a k d hnn
    cases halo : alookup p.configuration a with
    | none =>
      unfold Profile.delete_configuration
      rw [halo]
      rw [if_pos (Or.inr rfl)]
      rw [get_configuration_eq, halo]
      simp [alookup]
    | some inner =>
      have hc : p.configuration ≠ [] := by
        intro h
        rw [h] at halo
        simp [alookup] at halo
      unfold Profile.delete_configuration
      rw [halo]
      rw [if_neg (by simp [hc])]
      simp only [Option.getD_some]
      by_cases hk : alookup inner k = none
      · rw [if_neg (by simpa using hk)]
        unfold Profile.save
        rw [if_neg hc]
        rw [get_configuration_eq, halo]
        simp only [Option.getD_some]
        rw [hk]
        rfl
      · rw [if_pos (by simpa using hk)]
        by_cases hi : aerase inner k = []
        · rw [if_pos hi]
          have hgone : aerase p.configuration a ≠ [] := by
            unfold Profile.deleted_config at hnn
            rw [halo] at hnn
            simp only [Option.getD_some] at hnn
            rw [if_pos (by simpa using hk)] at hnn
            rw [if_pos hi] at hnn
            exact hnn
          unfold Profile.save
          rw [if_neg hgone]
          rw [get_configuration_eq]
          dsimp only
          rw [alookup_aerase_self]
          simp [alookup]
        · rw [if_neg hi]
          unfold Profile.save
          rw [if_neg (by exact ainsert_ne_nil _ _ _)]
          rw [get_configuration_eq]
          dsimp only
          rw [alookup_ainsert_self]
          simp only [Option.getD_some]
          rw [alookup_aerase_self]
          rfl
  · intro p a k hne hdel
    cases halo : alookup p.configuration a with
    | none => exact absurd halo hne
    | some inner =>
      have hc : p.configuration ≠ [] := by
        intro h
        rw [h] at halo
        simp [alookup] at halo
      unfold Profile.deleted_config at hdel
      rw [halo] at hdel
      simp only [Option.getD_some] at hdel
      unfold Profile.delete_configuration
      rw [halo]
      rw [if_neg (by simp [hc])]
      simp only [Option.getD_some]
      by_cases hk : alookup inner k = none
      · rw [if_neg (by simpa using hk)] at hdel
        exact absurd hdel hc
      · rw [if_pos (by simpa using hk)] at hdel
        rw [if_pos (by simpa using hk)]
        by_cases hi : aerase inner k = []
        · rw [if_pos hi] at hdel
          rw [if_pos hi]
          unfold Profile.save
          rw [if_pos hdel]
        · rw [if_neg hi] at hdel
          exact absurd hdel (ainsert_ne_nil _ _ _)

/-- C4 witness: the amended round-trip at concrete profiles: a set-get, a
delete-get that keeps the configuration non-empty, and a delete that empties
it (reinstating the defaults). -/
theorem C4_witness :
    (Profile.get_configuration
        (Profile.set_configuration profileFastingOnly "notes" "k" (JVal.jnum 2))
        "notes" "k" (JVal.jnum 0) = JVal.jnum 2) ∧
    (Profile.get_configuration
        (Profile.delete_configuration profileTwoApps "notes" (some "k"))
        "notes" "k" (JVal.jnum 7) = JVal.jnum 7) ∧
    ((Profile.delete_configuration profileFastingOnly "fasting"
        (some "min_fast_duration")).configuration =
      Profile.get_default_configuration) :=
  ⟨C4_config_roundtrip.1 profileFastingOnly "notes" "k" (JVal.jnum 2) (JVal.jnum 0),
   C4_config_roundtrip.2.1 profileTwoApps "notes" "k" (JVal.jnum 7) (by decide),
   C4_config_roundtrip.2.2 profileFastingOnly "fasting" "min_fast_duration"
     (by decide) (by decide)⟩

/-- C5 counterexample: on a profile whose configuration is exactly
`{"fasting": {"min_fast_duration": 5}}`, deleting the last key (or the whole
app) does NOT leave the "fasting" entry absent: `save` reinstates the default
configuration, which contains "fasting" again. -/
theorem C5_counterexample :
    alookup (Profile.delete_configuration profileFastingOnly "fasting"
        (some "min_fast_duration")).configuration "fasting" ≠ none ∧
    alookup (Profile.delete_configuration profileFastingOnly "fasting"
        none).configuration "fasting" ≠ none := by decide

/-- C5 amended: when app `A` maps to a sub-mapping holding only key `k`,
`delete_configuration(A, k)` prunes the whole entry for `A`, and
`delete_configuration(A, None)` removes it — unless the deletion empties the
entire configuration and `A` is "fasting", in which case `save` reinstates
the default configuration (which again holds a "fasting" entry). -/
theorem C5_delete_last_key (p : Profile) (A k : String) (v : JVal)
    (hA : alookup p.configuration A = some [(k, v)]) :
    (¬(aerase p.configuration A = [] ∧ A = "fasting") →
       alookup (Profile.delete_configuration p A (some k)).configuration A = none ∧
       alookup (Profile.delete_configuration p A none).configuration A = none) ∧
    ((aerase p.configuration A = [] ∧ A = "fasting") →
       (Profile.delete_configuration p A (some k)).configuration =
         Profile.get_default_configuration ∧
       (Profile.delete_configuration p A none).configuration =
         Profile.get_default_configuration) := by
  have hc : p.configuration ≠ [] := by
    intro h
    rw [h] at hA
    simp [alookup] at hA
  have hsomek :
      (Profile.delete_configuration p A (some k)).configuration =
        (Profile.save { configuration := aerase p.configuration A }).configuration := by
    unfold Profile.delete_configuration
    rw [hA]
    rw [if_neg (by simp [hc])]
    simp only [Option.getD_some]
    rw [if_pos (by simp [alookup])]
    rw [if_pos (by simp [aerase])]
  have hnonek :
      (Profile.delete_configuration p A none).configuration =
        (Profile.save { configuration := aerase p.configuration A }).configuration := by
    unfold Profile.delete_configuration
    rw [hA]
    rw [if_neg (by simp [hc])]
  constructor
  · intro h2
    rw [hsomek, hnonek]
    by_cases he : aerase p.configuration A = []
    · have hAf : A ≠ "fasting" := fun hf => h2 ⟨he, hf⟩
      unfold Profile.save
      rw [if_pos he]
      constructor <;>
        · show alookup Profile.get_default_configuration A = none
          unfold Profile.get_default_configuration
          simp only [alookup]
          rw [if_neg (fun h => hAf h.symm)]
    · unfold Profile.save
      rw [if_neg he]
      exact ⟨alookup_aerase_self _ _, alookup_aerase_self _ _⟩
  · intro h2
    rw [hsomek, hnonek]
    unfold Profile.save
    rw [if_pos h2.1]
    exact ⟨rfl, rfl⟩

/-- C5 witness: deleting the only key of the "notes" app (another app remains)
removes the "notes" entry entirely, for both deletion forms. -/
theorem C5_witness :
    alookup (Profile.delete_configuration profileTwoApps "notes"
        (some "k")).configuration "notes" = none ∧
    alookup (Profile.delete_configuration profileTwoApps "notes"
        none).configuration "notes" = none :=
  (C5_delete_last_key profileTwoApps "notes" "k" (JVal.jstr "x") (by decide)).1 (by decide)

/-- C10: `Profile.save` reinstates the default configuration whenever the blob
is empty at save time, so after every completed save — including those run by
`set_configuration` and `delete_configuration` — the configuration is never
the empty mapping, and deleting the last remaining entry restores the
defaults. -/
theorem C10_save_reinstates_defaults :
    (∀ p : Profile, (Profile.save p).configuration ≠ []) ∧
    (∀ p : Profile, ∀ a k : String, ∀ v : JVal,
       (Profile.set_configuration p a k v).configuration ≠ []) ∧
    (∀ p : Profile, ∀ a : String, ∀ key : Option String,
       p.configuration ≠ [] →
       (Profile.delete_configuration p a key).configuration ≠ []) ∧
    (∀ p : Profile, ∀ a : String,
       alookup p.configuration a ≠ none → aerase p.configuration a = [] →
       (Profile.delete_configuration p a none).configuration =
         Profile.get_default_configuration) := by
  refine ⟨save_config_ne_nil, ?_, ?_, ?_⟩
  · intro p a k v
    unfold Profile.set_configuration
    exact save_config_ne_nil _
  · intro p a key h
    unfold Profile.delete_configuration
    split
    · exact h
    · cases key with
      | none => exact save_config_ne_nil _
      | some k =>
        dsimp only
        split
        · exact save_config_ne_nil _
        · exact save_config_ne_nil _
  · intro p a hne he
    cases halo : alookup p.configuration a with
    | none => exact absurd halo hne
    | some inner =>
      have hc : p.configuration ≠ [] := by
        intro h
        rw [h] at halo
        simp [alookup] at halo
      unfold Profile.delete_configuration
      rw [halo]
      rw [if_neg (by simp [hc])]
      unfold Profile.save
      rw [if_pos he]

/-- C10 witness: emptying the sole "fasting" entry restores the defaults, and
deleting from a non-empty configuration never leaves it empty. -/
theorem C10_witness :
    ((Profile.delete_configuration profileFastingOnly "fasting" none).configuration =
       Profile.get_default_configuration) ∧
    (Profile.delete_configuration profileTwoApps "notes" none).configuration ≠ [] :=
  ⟨C10_save_reinstates_defaults.2.2.2 profileFastingOnly "fasting" (by decide) (by decide),
   C10_save_reinstates_defaults.2.2.1 profileTwoApps "notes" none (by decide)⟩

end HealthyHerron
